import Mathlib

/-
Shallow embedding of the arithmetic-expression interpreter in `src/main.py`.

Modelling conventions:
- Python floats are modelled by exact rationals (`ℚ`).  All arithmetic on the
  inputs exercised below is exact in IEEE-754 double precision as well, so the
  model and the source agree on every value this development mentions.  IEEE
  rounding itself is outside the model.  Python float division by zero raises
  `ZeroDivisionError` (it does not return an IEEE infinity); the model mirrors
  that with an error result.  Exponentiation with a non-integral exponent is
  outside the exact-rational model and is mapped to an explicit error; no
  integer-exponent computation in this file touches that branch.
- The lazy token generator is materialised into `Except String (List Token)`:
  an exception raised while lexing is the `error` case, which carries no
  tokens.  The spec (section 2) itself states that the lazy and the fully
  materialised token sequence are behaviourally equivalent for this grammar.
- The recursive-descent parser is embedded with an explicit fuel parameter
  standing for the call stack; every claim proved about the parser either
  holds for all fuel values or is evaluated at a fuel large enough for the
  concrete input (Python would likewise hit its recursion limit if the fuel
  analogue were exhausted).
- Values of Python expressions that may be `None` are `Option ℚ`; a Python
  exception is an `Except.error` carrying the exception text.
-/

/-- Token kinds, from `class TokenType(Enum)` in `src/main.py`. -/
inductive TokenType
  | NUMBER
  | PLUS
  | MINUS
  | STAR
  | SLASH
  | CARET
  | LPAREN
  | RPAREN
  | EOF
  deriving DecidableEq, Repr

/-- `class Token(NamedTuple)`: a kind together with an optional payload
(`value: Any = None`; the lexer only ever stores floats). -/
structure Token where
  type : TokenType
  value : Option ℚ
  deriving DecidableEq, Repr

/-- Python's `char in " \n\t"` whitespace test in `generate_tokens`. -/
def isWs (c : Char) : Bool :=
  c = ' ' || c = '\n' || c = '\t'

/-- The single-character operator tokens emitted by `generate_tokens`
(the `if char == "+": ... elif char == "^":` chain).  `none` means the
character is not one of the five operators. -/
def opToken? (c : Char) : Option Token :=
  if c = '+' then some ⟨.PLUS, none⟩
  else if c = '-' then some ⟨.MINUS, none⟩
  else if c = '*' then some ⟨.STAR, none⟩
  else if c = '/' then some ⟨.SLASH, none⟩
  else if c = '^' then some ⟨.CARET, none⟩
  else none

/-- Numeric value of a digit string, most significant digit first: the model
of Python's `float(num)` on the digit runs the lexer collects (exact; IEEE
rounding of huge literals is outside the model). -/
def digitsToNat (l : List Char) : Nat :=
  l.foldl (fun n c => 10 * n + (c.toNat - 48)) 0

/-- The `Number` token built for a digit run: `Token(TokenType.NUMBER, float(num))`. -/
def numTok (run : List Char) : Token :=
  ⟨.NUMBER, some ((digitsToNat run : ℕ) : ℚ)⟩

/-- A single-character string between apostrophes, as produced by Python's
`"'%s'" % char`. -/
def squote : String :=
  (Char.ofNat 39).toString

/-- The text of the exception `Exception("Unrecognized symbol: '%s'" % char)`
raised by `generate_tokens`. -/
def unrecMsg (c : Char) : String :=
  "Unrecognized symbol: " ++ squote ++ String.mk [c] ++ squote

/-- The inner `for char in textiter: if char not in digits: break; num += char`
loop of `generate_tokens`: starting from the digit(s) in `acc`, consume the
maximal contiguous run of digits.  Returns the accumulated run, the character
that broke the loop (`none` when the input was exhausted), and the remaining
characters. -/
def consumeRun (acc : List Char) : List Char → List Char × Option Char × List Char
  | [] => (acc, none, [])
  | c :: rest => if c.isDigit then consumeRun (acc ++ [c]) rest else (acc, some c, rest)

theorem consumeRun_len (acc l : List Char) :
    (consumeRun acc l).2.2.length ≤ l.length := by
  induction l generalizing acc with
  | nil => simp [consumeRun]
  | cons c rest ih =>
    simp only [consumeRun]
    split
    · exact le_trans (ih _) (Nat.le_succ _)
    · simp

theorem consumeRun_break_len {acc l run : List Char} {b : Char} {rest2 : List Char}
    (h : consumeRun acc l = (run, some b, rest2)) : rest2.length ≤ l.length := by
  have hlen := consumeRun_len acc l
  rw [h] at hlen
  simpa using hlen

/-- `def generate_tokens(text)` from `src/main.py`, materialised into a list.
After a digit run is emitted, the character that terminated the run is
processed by the same whitespace/operator checks in the same iteration; note
that the final `elif num is None: raise` means a character that terminated a
digit run is never reported as unrecognized (it is silently dropped when it
is neither whitespace nor an operator), and that there is no branch emitting
`LPAREN`/`RPAREN` tokens. -/
def generate_tokens : List Char → Except String (List Token)
  | [] => .ok []
  | c :: rest =>
    if c.isDigit then
      match h : consumeRun [c] rest with
      | (run, none, _) =>
        -- input exhausted inside the digit run: the leftover `char` is a
        -- digit, which matches no later branch, and the outer loop ends
        .ok [numTok run]
      | (run, some b, rest2) =>
        if isWs b then
          match generate_tokens rest2 with
          | .error e => .error e
          | .ok ts => .ok (numTok run :: ts)
        else
          match opToken? b with
          | some t =>
            match generate_tokens rest2 with
            | .error e => .error e
            | .ok ts => .ok (numTok run :: t :: ts)
          | none =>
            -- `num is not None`, so no exception: `b` is silently skipped
            match generate_tokens rest2 with
            | .error e => .error e
            | .ok ts => .ok (numTok run :: ts)
    else if isWs c then
      generate_tokens rest
    else
      match opToken? c with
      | some t =>
        match generate_tokens rest with
        | .error e => .error e
        | .ok ts => .ok (t :: ts)
      | none => .error (unrecMsg c)
termination_by l => l.length
decreasing_by
  all_goals simp only [List.length_cons]
  all_goals first
    | omega
    | exact Nat.lt_succ_of_le (consumeRun_break_len h)

/-- The expression-tree type: the tagged union of `NumberNode`,
`BinaryOpNode` and `UnaryOpNode` from `src/main.py`.  `NumberNode` stores
the token payload `num.value` (an `Option ℚ`, since a Python token payload
may in principle be `None`). -/
inductive Node
  | NumberNode (value : Option ℚ)
  | BinaryOpNode (left : Node) (op : Token) (right : Node)
  | UnaryOpNode (op : Token) (node : Node)
  deriving DecidableEq, Repr

/-- `next(tokens, Token(TokenType.EOF))`: pull the next token, synthesizing
an `EOF` token when the stream is exhausted. -/
def nextTok : List Token → Token × List Token
  | [] => (⟨.EOF, none⟩, [])
  | t :: ts => (t, ts)

/-- Error text standing for exhaustion of the recursion budget (the
analogue of Python's interpreter stack limit); every property proved below
either holds for all fuel values or is evaluated at ample fuel. -/
def fuelErr : String := "recursion budget exhausted"

mutual

/-- `def expr(tokens)`: `expr : term ((PLUS|MINUS) term)*`.  Returns the
lookahead token, the parsed node, and the rest of the token stream (the
Python iterator's remaining elements). -/
def expr : Nat → List Token → Except String (Token × Node × List Token)
  | 0, _ => .error fuelErr
  | fuel+1, tokens =>
    match term fuel tokens with
    | .error e => .error e
    | .ok (token, left, rest) => exprLoop fuel token left rest

/-- The `while token.type in (PLUS, MINUS)` loop of `expr`. -/
def exprLoop : Nat → Token → Node → List Token → Except String (Token × Node × List Token)
  | 0, _, _, _ => .error fuelErr
  | fuel+1, token, left, rest =>
    if token.type = .PLUS ∨ token.type = .MINUS then
      match term fuel rest with
      | .error e => .error e
      | .ok (token2, right, rest2) =>
        exprLoop fuel token2 (.BinaryOpNode left token right) rest2
    else .ok (token, left, rest)

/-- `def term(tokens)`: `term : factor ((SLASH|STAR) factor)*`. -/
def term : Nat → List Token → Except String (Token × Node × List Token)
  | 0, _ => .error fuelErr
  | fuel+1, tokens =>
    match factor fuel tokens with
    | .error e => .error e
    | .ok (token, left, rest) => termLoop fuel token left rest

/-- The `while token.type in (STAR, SLASH)` loop of `term`. -/
def termLoop : Nat → Token → Node → List Token → Except String (Token × Node × List Token)
  | 0, _, _, _ => .error fuelErr
  | fuel+1, token, left, rest =>
    if token.type = .STAR ∨ token.type = .SLASH then
      match factor fuel rest with
      | .error e => .error e
      | .ok (token2, right, rest2) =>
        termLoop fuel token2 (.BinaryOpNode left token right) rest2
    else .ok (token, left, rest)

/-- `def factor(tokens)`: `factor : (PLUS|MINUS) factor | power`. -/
def factor : Nat → List Token → Except String (Token × Node × List Token)
  | 0, _ => .error fuelErr
  | fuel+1, tokens =>
    let (token, rest) := nextTok tokens
    if token.type = .PLUS ∨ token.type = .MINUS then
      match factor fuel rest with
      | .error e => .error e
      | .ok (token2, right, rest2) => .ok (token2, .UnaryOpNode token right, rest2)
    else power fuel token rest

/-- `def power(tokens, token)`: `power : atom (CARET factor)*`. -/
def power : Nat → Token → List Token → Except String (Token × Node × List Token)
  | 0, _, _ => .error fuelErr
  | fuel+1, token, tokens =>
    match atom fuel token tokens with
    | .error e => .error e
    | .ok (token2, left, rest) => powerLoop fuel token2 left rest

/-- The `while token.type is CARET` loop of `power`; the right operand is a
`factor`, which is what makes `^` right-associative. -/
def powerLoop : Nat → Token → Node → List Token → Except String (Token × Node × List Token)
  | 0, _, _, _ => .error fuelErr
  | fuel+1, token, left, rest =>
    if token.type = .CARET then
      match factor fuel rest with
      | .error e => .error e
      | .ok (token2, right, rest2) =>
        powerLoop fuel token2 (.BinaryOpNode left token right) rest2
    else .ok (token, left, rest)

/-- `def atom(tokens, token)`: `atom : NUMBER | LPAREN expr RPAREN`.
Raises `Exception("Missing )")` on an unclosed parenthesis and
`Exception("Error")` on any token that cannot start an atom. -/
def atom : Nat → Token → List Token → Except String (Token × Node × List Token)
  | 0, _, _ => .error fuelErr
  | fuel+1, token, tokens =>
    if token.type = .NUMBER then
      let (token2, rest) := nextTok tokens
      .ok (token2, .NumberNode token.value, rest)
    else if token.type = .LPAREN then
      match expr fuel tokens with
      | .error e => .error e
      | .ok (token2, result, rest) =>
        if token2.type = .RPAREN then
          let (token3, rest2) := nextTok rest
          .ok (token3, result, rest2)
        else .error "Missing )"
    else .error "Error"

end

/-- Python's `visit(node.left) + visit(node.right)`: the addition itself,
after both operands are evaluated.  A `None` operand raises a `TypeError`
(modelled as an error); float addition is exact on the values in this
development. -/
def pyAdd (a b : Option ℚ) : Except String (Option ℚ) :=
  match a, b with
  | some x, some y => .ok (some (x + y))
  | _, _ => .error "TypeError"

/-- Python float subtraction, as in `pyAdd`. -/
def pySub (a b : Option ℚ) : Except String (Option ℚ) :=
  match a, b with
  | some x, some y => .ok (some (x - y))
  | _, _ => .error "TypeError"

/-- Python float multiplication, as in `pyAdd`. -/
def pyMul (a b : Option ℚ) : Except String (Option ℚ) :=
  match a, b with
  | some x, some y => .ok (some (x * y))
  | _, _ => .error "TypeError"

/-- Python float division `visit(node.left) / visit(node.right)`: dividing
by zero raises `ZeroDivisionError` (CPython does not produce an IEEE
infinity here); otherwise the quotient, exact on the values in this
development. -/
def pyDiv (a b : Option ℚ) : Except String (Option ℚ) :=
  match a, b with
  | some x, some y =>
    if y = 0 then .error "ZeroDivisionError: float division by zero"
    else .ok (some (x / y))
  | _, _ => .error "TypeError"

/-- Python float exponentiation `visit(node.left) ** visit(node.right)`,
restricted to the exact-rational model: defined for integer exponents (the
only exponents any computation in this development performs); `0.0` to a
negative power raises `ZeroDivisionError` in Python; a non-integral exponent
generally has an irrational value and lies outside the exact model, so it is
mapped to an explicit error here. -/
def pyPow (a b : Option ℚ) : Except String (Option ℚ) :=
  match a, b with
  | some x, some y =>
    if y.den = 1 then
      if 0 ≤ y.num then .ok (some (x ^ y.num.toNat))
      else if x = 0 then
        .error "ZeroDivisionError: zero cannot be raised to a negative power"
      else .ok (some (x ^ y.num))
    else .error "non-integral exponent outside the exact-rational model"
  | _, _ => .error "TypeError"

/-- The evaluator: `visit` dispatching to `visit_NumberNode`,
`visit_BinaryOpNode` and `visit_UnaryOpNode`.  The `Node` type is closed, so
the dynamic-dispatch failure (`visit: Error`) of the source cannot arise.
Each `visit_*` function falls through to an implicit `return None` when the
operator token matches none of its branches (the `.ok none` cases); an
exception raised while evaluating an operand propagates. -/
def visit : Node → Except String (Option ℚ)
  | .NumberNode v => .ok v
  | .BinaryOpNode l op r =>
    match op.type with
    | .PLUS =>
      match visit l with
      | .error e => .error e
      | .ok a =>
        match visit r with
        | .error e => .error e
        | .ok b => pyAdd a b
    | .MINUS =>
      match visit l with
      | .error e => .error e
      | .ok a =>
        match visit r with
        | .error e => .error e
        | .ok b => pySub a b
    | .STAR =>
      match visit l with
      | .error e => .error e
      | .ok a =>
        match visit r with
        | .error e => .error e
        | .ok b => pyMul a b
    | .SLASH =>
      match visit l with
      | .error e => .error e
      | .ok a =>
        match visit r with
        | .error e => .error e
        | .ok b => pyDiv a b
    | .CARET =>
      match visit l with
      | .error e => .error e
      | .ok a =>
        match visit r with
        | .error e => .error e
        | .ok b => pyPow a b
    | _ => .ok none
  | .UnaryOpNode op n =>
    match op.type with
    | .PLUS => visit n
    | .MINUS =>
      match visit n with
      | .error e => .error e
      | .ok (some x) => .ok (some (-x))
      | .ok none => .error "TypeError"
    | _ => .ok none

/-- The prompt `main` prints before reading standard input. -/
def prompt : String := "Press <Ctrl-D> to Terminate input"

/-- Recursion budget handed to the parser by `main`: generous for the whole
token list (each parser call consumes a token before recursing deeper, and
each grammar level costs a bounded number of calls per token). -/
def parseFuel (ts : List Token) : Nat := 10 * ts.length + 10

/-- Python's `print(value)` on the result of `visit`: `None` prints as
`None`; the float formatting of numeric results is modelled by the rational
literal's textual form (no property below depends on the exact digits). -/
def pyStr (v : Option ℚ) : String :=
  match v with
  | some q => toString q
  | none => "None"

namespace Py

/-- `def main(stdin)` from `src/main.py`: print the prompt, read all of
standard input, return early when it is empty, otherwise lex, parse, assert
the lookahead is `EOF`, evaluate, and print the result.  The first component
collects the lines written to standard output in order; the second is the
process outcome (`error` = uncaught exception).  (Namespaced because Lean
reserves the top-level name `main`.) -/
def main (text : List Char) : List String × Except String Unit :=
  if text.isEmpty then ([prompt], .ok ())
  else
    match generate_tokens text with
    | .error e => ([prompt], .error e)
    | .ok tokens =>
      match expr (parseFuel tokens) tokens with
      | .error e => ([prompt], .error e)
      | .ok (last_token, node, _) =>
        if last_token.type = .EOF then
          match visit node with
          | .error e => ([prompt], .error e)
          | .ok value => ([prompt, pyStr value], .ok ())
        else ([prompt], .error "AssertionError")

end Py

/-- Characters the lexer has a branch for: digits, whitespace, and the five
operators.  Parentheses are NOT handled: `generate_tokens` has no branch
emitting `LPAREN`/`RPAREN`. -/
def isHandled (c : Char) : Bool :=
  c.isDigit || isWs c || (opToken? c).isSome

/-- The character set the spec claims the lexer accepts: digits, whitespace,
the five operators, and parentheses. -/
def claimAllowed (c : Char) : Bool :=
  c.isDigit || isWs c || (opToken? c).isSome || c = '(' || c = ')'

theorem opToken?_spec {c : Char} {t : Token} (h : opToken? c = some t) :
    t.value = none ∧
      (t.type = .PLUS ∨ t.type = .MINUS ∨ t.type = .STAR ∨ t.type = .SLASH ∨
        t.type = .CARET) := by
  unfold opToken? at h
  split_ifs at h <;> cases h <;> simp

theorem consumeRun_all_digits (l : List Char) :
    ∀ acc, (∀ x ∈ l, x.isDigit = true) → consumeRun acc l = (acc ++ l, none, []) := by
  induction l with
  | nil => intro acc _; simp [consumeRun]
  | cons c rest ih =>
    intro acc hall
    have hc : c.isDigit = true := hall c (by simp)
    simp only [consumeRun, hc, if_true]
    rw [ih (acc ++ [c]) (fun x hx => hall x (by simp [hx]))]
    simp

theorem consumeRun_to_break (w : List Char) :
    ∀ acc (b : Char) rest, (∀ x ∈ w, x.isDigit = true) → b.isDigit = false →
      consumeRun acc (w ++ b :: rest) = (acc ++ w, some b, rest) := by
  induction w with
  | nil =>
    intro acc b rest _ hb
    simp [consumeRun, hb]
  | cons d w2 ih =>
    intro acc b rest hall hb
    have hd : d.isDigit = true := hall d (by simp)
    simp only [List.cons_append, consumeRun, hd, if_true, List.append_eq]
    rw [ih (acc ++ [d]) b rest (fun x hx => hall x (by simp [hx])) hb]
    simp

theorem exists_split_nondigit (l : List Char) (h : ¬ ∀ x ∈ l, x.isDigit = true) :
    ∃ w b w2, l = w ++ b :: w2 ∧ (∀ x ∈ w, x.isDigit = true) ∧ b.isDigit = false := by
  induction l with
  | nil => exact absurd (by simp) h
  | cons c rest ih =>
    by_cases hc : c.isDigit = true
    · have hrest : ¬ ∀ x ∈ rest, x.isDigit = true := by
        intro hall
        exact h (by
          intro x hx
          rcases List.mem_cons.mp hx with rfl | hx
          · exact hc
          · exact hall x hx)
      obtain ⟨w, b, w2, rfl, hw, hb⟩ := ih hrest
      exact ⟨c :: w, b, w2, by simp, by
        intro x hx
        rcases List.mem_cons.mp hx with rfl | hx
        · exact hc
        · exact hw x hx, hb⟩
    · exact ⟨[], c, rest, by simp, by simp, by simpa using hc⟩

theorem isHandled_false_parts {c : Char} (h : isHandled c = false) :
    c.isDigit = false ∧ isWs c = false ∧ opToken? c = none := by
  simp only [isHandled, Bool.or_eq_false_iff] at h
  exact ⟨h.1.1, h.1.2, Option.not_isSome_iff_eq_none.mp (by simp [h.2])⟩

theorem lex_first_unhandled_aux :
    ∀ (n : Nat) (u : List Char) (c : Char) (v : List Char),
      u.length ≤ n →
      (∀ x ∈ u, isHandled x = true) →
      (∀ d, u.getLast? = some d → d.isDigit = false) →
      isHandled c = false →
      generate_tokens (u ++ c :: v) = .error (unrecMsg c) := by
  intro n
  induction n with
  | zero =>
    intro u c v hlen hu hlast hc
    have hu0 : u = [] := List.eq_nil_of_length_eq_zero (Nat.le_zero.mp hlen)
    subst hu0
    obtain ⟨hd, hw, hop⟩ := isHandled_false_parts hc
    simp [generate_tokens, hd, hw, hop]
  | succ n ih =>
    intro u c v hlen hu hlast hc
    match u with
    | [] =>
      obtain ⟨hd, hw, hop⟩ := isHandled_false_parts hc
      simp [generate_tokens, hd, hw, hop]
    | a :: u2 =>
      have ha : isHandled a = true := hu a (by simp)
      by_cases had : a.isDigit = true
      · -- `a` starts a digit run
        have hnotall : ¬ ∀ x ∈ u2, x.isDigit = true := by
          intro hall
          have hne : (a :: u2) ≠ [] := by simp
          have hlq := List.getLast?_eq_getLast_of_ne_nil hne
          have hmem : (a :: u2).getLast hne ∈ a :: u2 := List.getLast_mem hne
          have hdig : ((a :: u2).getLast hne).isDigit = true := by
            rcases List.mem_cons.mp hmem with h | h
            · rw [h]; exact had
            · exact hall _ h
          rw [hlast _ hlq] at hdig
          exact Bool.false_ne_true hdig
        obtain ⟨w, b, w2, hsplit, hwdig, hbnd⟩ := exists_split_nondigit u2 hnotall
        subst hsplit
        have hb : isHandled b = true := hu b (by simp)
        have hassoc : (a :: (w ++ b :: w2)) ++ c :: v = a :: (w ++ b :: (w2 ++ c :: v)) := by
          simp
        have hcr : consumeRun [a] (w ++ b :: (w2 ++ c :: v)) =
            ([a] ++ w, some b, w2 ++ c :: v) :=
          consumeRun_to_break w [a] b (w2 ++ c :: v) hwdig hbnd
        have hlen2 : w2.length ≤ n := by
          simp only [List.length_cons, List.length_append] at hlen
          omega
        have hu2 : ∀ x ∈ w2, isHandled x = true := fun x hx => hu x (by simp [hx])
        have hlast2 : ∀ d, w2.getLast? = some d → d.isDigit = false := by
          intro d hd2
          apply hlast
          have h1 : d ∈ (b :: w2).getLast? :=
            List.mem_getLast?_cons (Option.mem_def.mpr hd2)
          have h2 : d ∈ (w ++ b :: w2).getLast? :=
            List.mem_getLast?_append_of_mem_getLast? h1
          exact Option.mem_def.mp (List.mem_getLast?_cons h2)
        have ihw2 := ih w2 c v hlen2 hu2 hlast2 hc
        rw [hassoc]
        simp [generate_tokens, had]
        split
        · rename_i run snd heq
          rw [hcr] at heq
          simp at heq
        · rename_i run b1 rest2 heq
          rw [hcr] at heq
          simp only [Prod.mk.injEq, Option.some.injEq] at heq
          obtain ⟨hrun, hb1, hrest2⟩ := heq
          subst hb1
          subst hrest2
          by_cases hbw : isWs b = true
          · simp [hbw, ihw2]
          · have hbop : (opToken? b).isSome = true := by
              simp only [isHandled, hbnd, hbw, Bool.false_or] at hb
              exact hb
            obtain ⟨t, ht⟩ := Option.isSome_iff_exists.mp hbop
            simp [hbw, ht, ihw2]
      · -- `a` is whitespace or an operator
        have had2 : a.isDigit = false := Bool.not_eq_true _ ▸ (by simpa using had)
        have hlen2 : u2.length ≤ n := by
          simp only [List.length_cons] at hlen
          omega
        have hu2 : ∀ x ∈ u2, isHandled x = true := fun x hx => hu x (by simp [hx])
        have hlast2 : ∀ d, u2.getLast? = some d → d.isDigit = false := by
          intro d hd2
          exact hlast d (Option.mem_def.mp (List.mem_getLast?_cons (Option.mem_def.mpr hd2)))
        have ihu2 := ih u2 c v hlen2 hu2 hlast2 hc
        by_cases haw : isWs a = true
        · simp [generate_tokens, had2, haw, ihu2]
        · have haop : (opToken? a).isSome = true := by
            simp only [isHandled, had2, haw, Bool.false_or] at ha
            exact ha
          obtain ⟨t, ht⟩ := Option.isSome_iff_exists.mp haop
          simp [generate_tokens, had2, haw, ht, ihu2]

theorem opToken?_payload {c : Char} {t : Token} (h : opToken? c = some t) :
    t.value.isSome = false ∧ ¬ t.type = TokenType.NUMBER := by
  obtain ⟨hv, hty⟩ := opToken?_spec h
  refine ⟨by simp [hv], ?_⟩
  rcases hty with h | h | h | h | h <;> simp [h]

theorem lex_payload_aux :
    ∀ (n : Nat) (l : List Char), l.length ≤ n →
      ∀ ts, generate_tokens l = .ok ts →
        ∀ tok ∈ ts, (tok.value.isSome = true ↔ tok.type = TokenType.NUMBER) := by
  intro n
  induction n with
  | zero =>
    intro l hlen ts hts tok htok
    have hl : l = [] := List.eq_nil_of_length_eq_zero (Nat.le_zero.mp hlen)
    subst hl
    simp [generate_tokens] at hts
    subst hts
    simp at htok
  | succ n ih =>
    intro l hlen ts hts tok htok
    match l with
    | [] =>
      simp [generate_tokens] at hts
      subst hts
      simp at htok
    | c :: rest =>
      have hrest : rest.length ≤ n := by
        simp only [List.length_cons] at hlen
        omega
      by_cases hcd : c.isDigit = true
      · simp only [generate_tokens, hcd, if_true] at hts
        split at hts
        · rename_i run snd heq
          simp only [Except.ok.injEq] at hts
          subst hts
          simp only [List.mem_singleton] at htok
          subst htok
          simp [numTok]
        · rename_i run b1 rest2 heq
          have hr2 : rest2.length ≤ n := by
            have := consumeRun_len [c] rest
            rw [heq] at this
            simp only at this
            omega
          split at hts
          · -- whitespace after the run
            split at hts
            · exact absurd hts (by simp)
            · rename_i ts0 heq2
              simp only [Except.ok.injEq] at hts
              subst hts
              rcases List.mem_cons.mp htok with rfl | htok0
              · simp [numTok]
              · exact ih rest2 hr2 ts0 heq2 tok htok0
          · split at hts
            · -- operator after the run
              rename_i t hop
              split at hts
              · exact absurd hts (by simp)
              · rename_i ts0 heq2
                simp only [Except.ok.injEq] at hts
                subst hts
                rcases List.mem_cons.mp htok with rfl | htok0
                · simp [numTok]
                · rcases List.mem_cons.mp htok0 with rfl | htok1
                  · obtain ⟨hv, hty⟩ := opToken?_payload hop
                    simp [hv, hty]
                  · exact ih rest2 hr2 ts0 heq2 tok htok1
            · -- unrecognized character silently skipped after the run
              split at hts
              · exact absurd hts (by simp)
              · rename_i ts0 heq2
                simp only [Except.ok.injEq] at hts
                subst hts
                rcases List.mem_cons.mp htok with rfl | htok0
                · simp [numTok]
                · exact ih rest2 hr2 ts0 heq2 tok htok0
      · by_cases hcw : isWs c = true
        · simp only [generate_tokens, hcd, hcw, if_true, if_false, Bool.false_eq_true] at hts
          exact ih rest hrest ts hts tok htok
        · cases hop : opToken? c with
          | none =>
            simp [generate_tokens, hcd, hcw, hop] at hts
          | some t =>
            simp only [generate_tokens, hcd, hcw, hop, if_false, Bool.false_eq_true] at hts
            split at hts
            · exact absurd hts (by simp)
            · rename_i ts0 heq2
              simp only [Except.ok.injEq] at hts
              subst hts
              rcases List.mem_cons.mp htok with rfl | htok0
              · obtain ⟨hv, hty⟩ := opToken?_payload hop
                simp [hv, hty]
              · exact ih rest hrest ts0 heq2 tok htok0

/-- A binary operator token as claimed by the invariant: one of the five
operator kinds. -/
def goodOpB (t : Token) : Bool :=
  t.type == .PLUS || t.type == .MINUS || t.type == .STAR || t.type == .SLASH ||
    t.type == .CARET

/-- A unary operator token as claimed by the invariant: `Plus` or `Minus`. -/
def goodOpU (t : Token) : Bool :=
  t.type == .PLUS || t.type == .MINUS

/-- The tree invariant of the spec: every `BinaryOpNode` operator is one of
the five operator kinds and every `UnaryOpNode` operator is `Plus` or
`Minus`. -/
def goodNode : Node → Bool
  | .NumberNode _ => true
  | .BinaryOpNode l op r => goodOpB op && goodNode l && goodNode r
  | .UnaryOpNode op nd => goodOpU op && goodNode nd

theorem parsers_good : ∀ fuel : Nat,
    (∀ ts t nd r, expr fuel ts = .ok (t, nd, r) → goodNode nd = true) ∧
    (∀ tk left rest t nd r, goodNode left = true →
      exprLoop fuel tk left rest = .ok (t, nd, r) → goodNode nd = true) ∧
    (∀ ts t nd r, term fuel ts = .ok (t, nd, r) → goodNode nd = true) ∧
    (∀ tk left rest t nd r, goodNode left = true →
      termLoop fuel tk left rest = .ok (t, nd, r) → goodNode nd = true) ∧
    (∀ ts t nd r, factor fuel ts = .ok (t, nd, r) → goodNode nd = true) ∧
    (∀ tk ts t nd r, power fuel tk ts = .ok (t, nd, r) → goodNode nd = true) ∧
    (∀ tk left rest t nd r, goodNode left = true →
      powerLoop fuel tk left rest = .ok (t, nd, r) → goodNode nd = true) ∧
    (∀ tk ts t nd r, atom fuel tk ts = .ok (t, nd, r) → goodNode nd = true) := by
  intro fuel
  induction fuel with
  | zero =>
    refine ⟨?_, ?_, ?_, ?_, ?_, ?_, ?_, ?_⟩ <;>
      intros <;> simp_all [expr, exprLoop, term, termLoop, factor, power, powerLoop, atom]
  | succ n ih =>
    obtain ⟨ihE, ihEL, ihT, ihTL, ihF, ihP, ihPL, ihA⟩ := ih
    refine ⟨?_, ?_, ?_, ?_, ?_, ?_, ?_, ?_⟩
    · -- expr
      intro ts t nd r h
      simp only [expr] at h
      split at h
      · exact absurd h (by simp)
      · rename_i tk left rest heq
        exact ihEL _ _ _ _ _ _ (ihT _ _ _ _ heq) h
    · -- exprLoop
      intro tk left rest t nd r hleft h
      simp only [exprLoop] at h
      split at h
      · rename_i hop
        split at h
        · exact absurd h (by simp)
        · rename_i tk2 right rest2 heq
          refine ihEL _ _ _ _ _ _ ?_ h
          have hright := ihT _ _ _ _ heq
          have hgop : goodOpB tk = true := by
            rcases hop with h1 | h1 <;> simp [goodOpB, h1]
          simp [goodNode, hgop, hleft, hright]
      · simp only [Except.ok.injEq, Prod.mk.injEq] at h
        obtain ⟨-, h2, -⟩ := h
        subst h2
        exact hleft
    · -- term
      intro ts t nd r h
      simp only [term] at h
      split at h
      · exact absurd h (by simp)
      · rename_i tk left rest heq
        exact ihTL _ _ _ _ _ _ (ihF _ _ _ _ heq) h
    · -- termLoop
      intro tk left rest t nd r hleft h
      simp only [termLoop] at h
      split at h
      · rename_i hop
        split at h
        · exact absurd h (by simp)
        · rename_i tk2 right rest2 heq
          refine ihTL _ _ _ _ _ _ ?_ h
          have hright := ihF _ _ _ _ heq
          have hgop : goodOpB tk = true := by
            rcases hop with h1 | h1 <;> simp [goodOpB, h1]
          simp [goodNode, hgop, hleft, hright]
      · simp only [Except.ok.injEq, Prod.mk.injEq] at h
        obtain ⟨-, h2, -⟩ := h
        subst h2
        exact hleft
    · -- factor
      intro ts t nd r h
      simp only [factor] at h
      split at h
      · rename_i hop
        split at h
        · exact absurd h (by simp)
        · rename_i tk2 right rest2 heq
          simp only [Except.ok.injEq, Prod.mk.injEq] at h
          obtain ⟨-, h2, -⟩ := h
          subst h2
          have hright := ihF _ _ _ _ heq
          have hgop : goodOpU (nextTok ts).1 = true := by
            rcases hop with h1 | h1 <;> simp [goodOpU, h1]
          simp [goodNode, hgop, hright]
      · exact ihP _ _ _ _ _ h
    · -- power
      intro tk ts t nd r h
      simp only [power] at h
      split at h
      · exact absurd h (by simp)
      · rename_i tk2 left rest heq
        exact ihPL _ _ _ _ _ _ (ihA _ _ _ _ _ heq) h
    · -- powerLoop
      intro tk left rest t nd r hleft h
      simp only [powerLoop] at h
      split at h
      · rename_i hop
        split at h
        · exact absurd h (by simp)
        · rename_i tk2 right rest2 heq
          refine ihPL _ _ _ _ _ _ ?_ h
          have hright := ihF _ _ _ _ heq
          have hgop : goodOpB tk = true := by simp [goodOpB, hop]
          simp [goodNode, hgop, hleft, hright]
      · simp only [Except.ok.injEq, Prod.mk.injEq] at h
        obtain ⟨-, h2, -⟩ := h
        subst h2
        exact hleft
    · -- atom
      intro tk ts t nd r h
      simp only [atom] at h
      split at h
      · simp only [Except.ok.injEq, Prod.mk.injEq] at h
        obtain ⟨-, h2, -⟩ := h
        subst h2
        simp [goodNode]
      · split at h
        · split at h
          · exact absurd h (by simp)
          · rename_i tk2 result rest2 heq
            split at h
            · simp only [Except.ok.injEq, Prod.mk.injEq] at h
              obtain ⟨-, h2, -⟩ := h
              subst h2
              exact ihE _ _ _ _ heq
            · exact absurd h (by simp)
        · exact absurd h (by simp)

/-- C1: the spec claims that on the characters between parentheses the lexer
emits `LParen`/`RParen` tokens and that the pipeline evaluates
`(1+2)*3` to `9.0`.  The code cannot do this: `generate_tokens` has no
branch for parentheses (even though `TokenType.LPAREN`/`RPAREN` exist and
`atom` is written to consume them), so lexing stops at the very first
character with `Unrecognized symbol` and the whole run fails. -/
theorem c1_parens_unrecognized :
    generate_tokens ['(', '1', '+', '2', ')', '*', '3'] = .error (unrecMsg '(') ∧
      Py.main ['(', '1', '+', '2', ')', '*', '3'] = ([prompt], .error (unrecMsg '(')) := by
  constructor
  · simp [generate_tokens, consumeRun, isWs, opToken?]
  · simp [Py.main, generate_tokens, consumeRun, isWs, opToken?]

theorem main_three_div_zero :
    Py.main ['3', '/', '0'] =
      ([prompt], .error "ZeroDivisionError: float division by zero") := by
  simp [Py.main, generate_tokens, consumeRun, isWs, opToken?, numTok, digitsToNat]
  rfl

/-- C2 counterexample: the claim says evaluating `3/0` succeeds with
IEEE `+infinity`; in fact the run does not succeed. -/
theorem c2_counterexample : (Py.main ['3', '/', '0']).2 ≠ .ok () := by
  rw [main_three_div_zero]
  simp

/-- C2 as amended: Python float division by zero raises `ZeroDivisionError`
(it does not yield an IEEE infinity), so evaluating `3/0` aborts the
pipeline at the evaluation stage with that error. -/
theorem c2_div_by_zero_raises :
    visit (.BinaryOpNode (.NumberNode (some 3)) ⟨.SLASH, none⟩ (.NumberNode (some 0))) =
        .error "ZeroDivisionError: float division by zero" ∧
      Py.main ['3', '/', '0'] =
        ([prompt], .error "ZeroDivisionError: float division by zero") :=
  ⟨rfl, main_three_div_zero⟩

/-- C3 counterexample: `@` is outside the claimed accepted character set,
yet lexing `1@` does not fail — the `@` immediately terminates the digit run
`1`, `num is not None` disables the `raise`, and the character is silently
dropped, leaving the single token `Number(1.0)`. -/
theorem c3_counterexample :
    claimAllowed '@' = false ∧
      generate_tokens ['1', '@'] = .ok [Token.mk .NUMBER (some 1)] := by
  constructor
  · decide
  · simp [generate_tokens, consumeRun, isWs, opToken?, numTok, digitsToNat]

/-- C3 as amended: for every input containing a character the lexer does not
handle (not a digit, not whitespace, not one of the five operators —
parentheses are likewise unhandled by this lexer), if no earlier character
is unhandled and the character is not immediately preceded by a digit, then
lexing fails right there with the `Unrecognized symbol` error naming that
character, and no tokens result; an unhandled character immediately
preceded by a digit is instead silently skipped (see the counterexample). -/
theorem c3_first_unhandled_fails (u : List Char) (c : Char) (v : List Char)
    (hu : ∀ x ∈ u, isHandled x = true)
    (hlast : ∀ d, u.getLast? = some d → d.isDigit = false)
    (hc : isHandled c = false) :
    generate_tokens (u ++ c :: v) = .error (unrecMsg c) :=
  lex_first_unhandled_aux u.length u c v le_rfl hu hlast hc

/-- C3 witness: lexing `+@1` fails at the `@` with the error naming it. -/
theorem c3_witness :
    isHandled '@' = false ∧
      generate_tokens (['+'] ++ '@' :: ['1']) = .error (unrecMsg '@') := by
  refine ⟨by decide, c3_first_unhandled_fails ['+'] '@' ['1'] (by decide) ?_ (by decide)⟩
  intro d hd
  simp only [List.getLast?_singleton, Option.some.injEq] at hd
  subst hd
  decide

/-- C4: whenever lexing succeeds and the parser returns with a lookahead
token other than `EOF` (that is, a token remains after one structurally
complete expression), `main` fails fatally: `assert last_token.type is
TokenType.EOF` raises `AssertionError`. -/
theorem c4_trailing_token_fails (text : List Char) (ts : List Token)
    (t : Token) (nd : Node) (rest : List Token)
    (h1 : generate_tokens text = .ok ts)
    (h2 : expr (parseFuel ts) ts = .ok (t, nd, rest))
    (h3 : ¬ t.type = TokenType.EOF) :
    Py.main text = ([prompt], .error "AssertionError") := by
  by_cases htext : text = []
  · subst htext
    simp only [generate_tokens, Except.ok.injEq] at h1
    subst h1
    have hnil : expr (parseFuel ([] : List Token)) [] = .error "Error" := rfl
    rw [hnil] at h2
    exact absurd h2 (by simp)
  · have hne : text.isEmpty = false := by
      cases text
      · exact absurd rfl htext
      · rfl
    simp only [Py.main, hne, Bool.false_eq_true, if_false, h1, h2]
    simp [h3]

/-- C4 witness: `1 2` lexes to two `Number` tokens, the parser stops after
the first with the second as lookahead, and `main` dies on the assertion. -/
theorem c4_witness : Py.main ['1', ' ', '2'] = ([prompt], .error "AssertionError") :=
  c4_trailing_token_fails ['1', ' ', '2']
    [⟨.NUMBER, some 1⟩, ⟨.NUMBER, some 2⟩] ⟨.NUMBER, some 2⟩ (.NumberNode (some 1)) []
    (by simp [generate_tokens, consumeRun, isWs, opToken?, numTok, digitsToNat])
    (by rfl)
    (by decide)

/-- C5: `2^3^2` lexes to `[2, ^, 3, ^, 2]`, the parser groups the caret
chain to the right — the tree is `2 ^ (3 ^ 2)`, because the right operand
of `^` is parsed by `factor`, which swallows the rest of the chain — and
evaluation yields `512` (not `64`, the left-associative reading). -/
theorem c5_caret_right_assoc :
    generate_tokens ['2', '^', '3', '^', '2'] =
        .ok [⟨.NUMBER, some 2⟩, ⟨.CARET, none⟩, ⟨.NUMBER, some 3⟩, ⟨.CARET, none⟩,
          ⟨.NUMBER, some 2⟩] ∧
      expr (parseFuel [⟨.NUMBER, some 2⟩, ⟨.CARET, none⟩, ⟨.NUMBER, some 3⟩,
            ⟨.CARET, none⟩, ⟨.NUMBER, some 2⟩])
          [⟨.NUMBER, some 2⟩, ⟨.CARET, none⟩, ⟨.NUMBER, some 3⟩, ⟨.CARET, none⟩,
            ⟨.NUMBER, some 2⟩] =
        .ok (⟨.EOF, none⟩,
          .BinaryOpNode (.NumberNode (some 2)) ⟨.CARET, none⟩
            (.BinaryOpNode (.NumberNode (some 3)) ⟨.CARET, none⟩ (.NumberNode (some 2))),
          []) ∧
      visit (.BinaryOpNode (.NumberNode (some 2)) ⟨.CARET, none⟩
          (.BinaryOpNode (.NumberNode (some 3)) ⟨.CARET, none⟩ (.NumberNode (some 2)))) =
        .ok (some 512) ∧
      Py.main ['2', '^', '3', '^', '2'] = ([prompt, pyStr (some 512)], .ok ()) := by
  refine ⟨?_, rfl, rfl, ?_⟩
  · simp [generate_tokens, consumeRun, isWs, opToken?, numTok, digitsToNat]
  · simp [Py.main, generate_tokens, consumeRun, isWs, opToken?, numTok, digitsToNat]
    rfl

/-- C6: `-2^2` parses with the leading unary minus wrapping the whole power
chain — the tree is `-(2 ^ 2)`, since `factor` builds the `UnaryOpNode`
around the result of `power` — and evaluation yields `-4`. -/
theorem c6_unary_minus_binds_looser :
    generate_tokens ['-', '2', '^', '2'] =
        .ok [⟨.MINUS, none⟩, ⟨.NUMBER, some 2⟩, ⟨.CARET, none⟩, ⟨.NUMBER, some 2⟩] ∧
      expr (parseFuel [⟨.MINUS, none⟩, ⟨.NUMBER, some 2⟩, ⟨.CARET, none⟩,
            ⟨.NUMBER, some 2⟩])
          [⟨.MINUS, none⟩, ⟨.NUMBER, some 2⟩, ⟨.CARET, none⟩, ⟨.NUMBER, some 2⟩] =
        .ok (⟨.EOF, none⟩,
          .UnaryOpNode ⟨.MINUS, none⟩
            (.BinaryOpNode (.NumberNode (some 2)) ⟨.CARET, none⟩ (.NumberNode (some 2))),
          []) ∧
      visit (.UnaryOpNode ⟨.MINUS, none⟩
          (.BinaryOpNode (.NumberNode (some 2)) ⟨.CARET, none⟩ (.NumberNode (some 2)))) =
        .ok (some (-4)) ∧
      Py.main ['-', '2', '^', '2'] = ([prompt, pyStr (some (-4))], .ok ()) := by
  refine ⟨?_, rfl, rfl, ?_⟩
  · simp [generate_tokens, consumeRun, isWs, opToken?, numTok, digitsToNat]
  · simp [Py.main, generate_tokens, consumeRun, isWs, opToken?, numTok, digitsToNat]
    rfl

/-- C7: a non-empty input consisting only of digit characters lexes to
exactly one token: a `Number` token whose payload is the numeric value of
the whole digit run (the run is consumed greedily and converted by
`float(num)`, modelled exactly). -/
theorem c7_digit_run (s : List Char) (hne : s ≠ [])
    (hall : ∀ c ∈ s, c.isDigit = true) :
    generate_tokens s = .ok [Token.mk .NUMBER (some ((digitsToNat s : ℚ)))] := by
  match s with
  | [] => exact absurd rfl hne
  | c :: rest =>
    have hc : c.isDigit = true := hall c (by simp)
    have hcr : consumeRun [c] rest = ([c] ++ rest, none, []) :=
      consumeRun_all_digits rest [c] (fun x hx => hall x (by simp [hx]))
    simp [generate_tokens, hc]
    split
    · rename_i run snd heq
      rw [hcr] at heq
      simp only [Prod.mk.injEq] at heq
      obtain ⟨h1, -⟩ := heq
      subst h1
      simp [numTok]
    · rename_i run b1 rest2 heq
      rw [hcr] at heq
      simp at heq

/-- C7 witness: `42` lexes to the single token `Number(42.0)`. -/
theorem c7_witness :
    (['4', '2'] : List Char) ≠ [] ∧
      (∀ c ∈ (['4', '2'] : List Char), c.isDigit = true) ∧
      generate_tokens ['4', '2'] =
        .ok [Token.mk .NUMBER (some ((digitsToNat ['4', '2'] : ℚ)))] :=
  ⟨by decide, by decide, c7_digit_run ['4', '2'] (by decide) (by decide)⟩

/-- C8 counterexample: the claim says empty input produces no output, but
`main` prints the prompt line before reading anything, so the output list is
not empty. -/
theorem c8_counterexample : (Py.main []).1 ≠ ([] : List String) := by
  simp [Py.main]

/-- C8 as amended: on empty input `main` performs no tokenizing, parsing or
evaluation, writes nothing beyond the initial prompt line, and terminates
successfully with no error. -/
theorem c8_empty_input : Py.main [] = ([prompt], .ok ()) := rfl

/-- C9: (a) every tree the parser (`expr`, at any recursion budget) returns
satisfies the invariant — each `BinaryOpNode` operator is one of the five
operator kinds and each `UnaryOpNode` operator is `Plus` or `Minus`; and
(b) every token the lexer emits carries a payload exactly when its kind is
`NUMBER`. -/
theorem c9_invariants :
    (∀ (fuel : Nat) (ts : List Token) (t : Token) (nd : Node) (r : List Token),
        expr fuel ts = .ok (t, nd, r) → goodNode nd = true) ∧
      (∀ (s : List Char) (ts : List Token), generate_tokens s = .ok ts →
        ∀ tok ∈ ts, (tok.value.isSome = true ↔ tok.type = TokenType.NUMBER)) :=
  ⟨fun fuel ts t nd r h => (parsers_good fuel).1 ts t nd r h,
   fun s ts h tok htok => lex_payload_aux s.length s le_rfl ts h tok htok⟩

/-- C9 witness: the tree parsed from `-2^2` satisfies the invariant, and the
`PLUS` token lexed from `+` carries no payload. -/
theorem c9_witness :
    goodNode (.UnaryOpNode ⟨.MINUS, none⟩
        (.BinaryOpNode (.NumberNode (some 2)) ⟨.CARET, none⟩ (.NumberNode (some 2)))) =
      true ∧
      ((⟨.PLUS, none⟩ : Token).value.isSome = true ↔
        (⟨.PLUS, none⟩ : Token).type = TokenType.NUMBER) :=
  ⟨c9_invariants.1 50
      [⟨.MINUS, none⟩, ⟨.NUMBER, some 2⟩, ⟨.CARET, none⟩, ⟨.NUMBER, some 2⟩]
      ⟨.EOF, none⟩
      (.UnaryOpNode ⟨.MINUS, none⟩
        (.BinaryOpNode (.NumberNode (some 2)) ⟨.CARET, none⟩ (.NumberNode (some 2))))
      [] rfl,
   c9_invariants.2 ['+'] [⟨.PLUS, none⟩]
      (by simp [generate_tokens, isWs, opToken?]) ⟨.PLUS, none⟩ (by simp)⟩

/-- C10: on every input, the prompt line is the first thing `main` writes to
standard output — in particular the output is never just a result line, and
the prompt appears even when standard input is empty. -/
theorem c10_prompt_first (text : List Char) :
    ∃ restOut, (Py.main text).1 = prompt :: restOut := by
  simp only [Py.main]
  split
  · exact ⟨[], rfl⟩
  · split
    · exact ⟨[], rfl⟩
    · split
      · exact ⟨[], rfl⟩
      · split
        · split
          · exact ⟨[], rfl⟩
          · exact ⟨[pyStr _], rfl⟩
        · exact ⟨[], rfl⟩

/-- C10 witness: on the input `1` the prompt line heads the output. -/
theorem c10_witness : ∃ restOut, (Py.main ['1']).1 = prompt :: restOut :=
  c10_prompt_first ['1']
